import Mathlib

/-!
Shallow embedding of `server.js` of the relational-database-test-server
repository: artifact discovery (`getAllTests`), the report assembler
(`addStats`), the isolated mocha executor (`runMochaInChild`), the
normal-server (declared-position) result computation (`getResultNormal`,
`getResultTestMode`) and the project-server (executed-position) result
computation (`getResultProjectMode`), together with the `/result` route
handlers that wrap them.

Filesystem state (the `test/` directory listing and the `.mocharc.json`
configuration file) and the child-process behaviour are explicit
parameters; JS numbers that matter here (step keys parsed by
`parseFloat`) are modelled as `ℚ`, with `Option ℚ` where `NaN` can
arise.
-/

namespace Server

/-- Numeric value of a digit string, most significant digit first
(`Char.toNat '0' = 48`). -/
def digitsToNat (cs : List Char) : Nat :=
  cs.foldl (fun acc c => 10 * acc + (c.toNat - 48)) 0

/-- Value of the longest leading decimal-literal fragment of a character
list: `digits ["." digits*]` or `"." digits+`.  This is the fragment of
JS `parseFloat` this program exercises (its inputs are filenames, so
exponent notation never occurs).  `none` models `NaN` (no parsable
prefix). -/
def parseDecimal? (cs : List Char) : Option ℚ :=
  let d1 := cs.takeWhile Char.isDigit
  let r1 := cs.dropWhile Char.isDigit
  if d1.isEmpty then
    if r1.head? == some '.' then
      let d2 := r1.tail.takeWhile Char.isDigit
      if d2.isEmpty then none
      else some ((digitsToNat d2 : ℚ) / 10 ^ d2.length)
    else none
  else
    if r1.head? == some '.' then
      let d2 := r1.tail.takeWhile Char.isDigit
      some ((digitsToNat d1 : ℚ) + (digitsToNat d2 : ℚ) / 10 ^ d2.length)
    else some (digitsToNat d1)

/-- JS `parseFloat` on the strings this program feeds it: skip leading
whitespace, optional sign, then the longest decimal prefix; `none`
models `NaN`. -/
def parseFloat? (s : String) : Option ℚ :=
  let cs := s.data.dropWhile Char.isWhitespace
  if cs.head? == some '-' then (parseDecimal? cs.tail).map Neg.neg
  else if cs.head? == some '+' then parseDecimal? cs.tail
  else parseDecimal? cs

/-- The filename filter of `getAllTests`: the regex
`^\d+(\.\d+)?\.test\.js$` (digits, one optional single decimal group,
then the `.test.js` suffix).  Since a digit is never `'.'`, the greedy
digit runs of the regex are forced, so this direct decomposition is the
regex. -/
def isTestFileName (f : String) : Bool :=
  let d1 := f.data.takeWhile Char.isDigit
  let r1 := f.data.dropWhile Char.isDigit
  if d1.isEmpty then false
  else if r1.head? == some '.' then
    let r2 := r1.tail
    let d2 := r2.takeWhile Char.isDigit
    if d2.isEmpty then r2 == "test.js".data
    else r2.dropWhile Char.isDigit == ".test.js".data
  else false

/-- One discovered test unit: the filename and its numeric step
(`parseFloat(f)`; for names accepted by `isTestFileName` the parse
always succeeds, so the `.getD 0` default below is unreachable). -/
structure Artifact where
  file : String
  step : ℚ
deriving Repr, DecidableEq

/-- A directory listing: `none` models a non-existent `test/` directory
(`fs.existsSync` false), `some files` its `readdirSync` contents. -/
abbrev Dir := Option (List String)

/-- The function `getAllTests`: filter the listing by the test-name pattern, parse
each step with `parseFloat`, and sort ascending by step
(`Array.prototype.sort` with the numeric comparator `a.step - b.step`
is a stable sort, modelled by `mergeSort`). -/
def getAllTests (dir : Dir) : List Artifact :=
  match dir with
  | none => []
  | some files =>
      ((files.filter isTestFileName).map
          (fun f => Artifact.mk f ((parseFloat? f).getD 0))).mergeSort
        (fun a b => decide (a.step ≤ b.step))

/-- The diagnostic sub-object attached by project mode (the `test:`
field).  The JS objects built in the empty-directory and real-run
branches carry no `forced` key; that absence is modelled as
`forced := false`. -/
structure TestInfo where
  file : Option String
  passed : Bool
  exitCode : Option Int
  stdout : String
  stderr : String
  errorMessage : String
  forced : Bool
deriving Repr, DecidableEq

/-- The partial result each mode builds and hands to `addStats`. -/
structure Payload where
  current : Option String
  passed : List String
  locked : List String
  total : Nat
  next : Option String
  test : Option TestInfo
deriving Repr, DecidableEq

/-- JS `Math.round` on the non-negative rationals produced here: round
half away from zero, i.e. `⌊q + 1/2⌋`. -/
def mathRound (q : ℚ) : ℤ := ⌊q + 1 / 2⌋

/-- The full report returned by every mode. -/
structure Report extends Payload where
  totalCount : Nat
  passedCount : Nat
  lockedCount : Nat
  passedPercent : ℤ
  lockedPercent : ℤ
  progress : ℤ
deriving Repr, DecidableEq

/-- The report assembler `addStats`.  `payload.total` is a `Nat` in
this embedding (every caller passes `tests.length`), so the
`Number.isFinite` and `Array.isArray` defensive checks of the source
are identities here. -/
def addStats (p : Payload) : Report :=
  let total := p.total
  let passedCount := p.passed.length
  let lockedCount := p.locked.length
  let denom : Nat := if total > 0 then total else 1
  let passedPercent := mathRound ((passedCount : ℚ) / (denom : ℚ) * 100)
  let lockedPercent := mathRound ((lockedCount : ℚ) / (denom : ℚ) * 100)
  { p with
    totalCount := total
    passedCount := passedCount
    lockedCount := lockedCount
    passedPercent := passedPercent
    lockedPercent := lockedPercent
    progress := if total > 0 then passedPercent else 0 }

/-- Node `path.basename` (posix): the part after the last `/`, ignoring
trailing slashes. -/
def basename (s : String) : String :=
  String.mk (((s.data.reverse.dropWhile (· == '/')).takeWhile (· != '/')).reverse)

/-- The `.mocharc.json` source as `getResultNormal` observes it: absent
file, present but not valid JSON (`JSON.parse` throws, carrying its
message), or parsed JSON whose `spec` field is either not an array
(`none`) or an array of strings. -/
inductive MocharcFile
  | absent
  | unparseable (msg : String)
  | parsed (spec : Option (List String))
deriving Repr, DecidableEq

/-- The errors `getResultNormal` can throw. -/
inductive NormalError
  | configMissing
  | configUnparseable (msg : String)
  | configInvalid
deriving Repr, DecidableEq

/-- The `err.message` of each throw site (for a JSON syntax error, the
parser's own message). -/
def NormalError.message : NormalError → String
  | .configMissing => "Normal mode requires \".mocharc.json\" (missing)."
  | .configUnparseable m => m
  | .configInvalid =>
      "Invalid \".mocharc.json\": expected \x7b \"spec\": [\"./test/X.test.js\"] \x7d."

/-- JS `x || null` on an optional string: JS `||` takes the fallback when
the left operand is falsy (`undefined` or the empty string). -/
def orNull (o : Option String) : Option String :=
  match o with
  | some s => if s = "" then none else some s
  | none => none

/-- JS `<` against a possibly-`NaN` right operand: every comparison with
`NaN` is false. -/
def ltNum (q : ℚ) (c : Option ℚ) : Bool :=
  match c with
  | some c => decide (q < c)
  | none => false

/-- JS `>` against a possibly-`NaN` right operand. -/
def gtNum (q : ℚ) (c : Option ℚ) : Bool :=
  match c with
  | some c => decide (c < q)
  | none => false

/-- The function `getResultNormal` (normal server, declared-position mode).  The
source fills `passed` and `locked` in one loop with two independent
`if` pushes over the sorted `tests`; that is the pair of filters. -/
def getResultNormal (rc : MocharcFile) (dir : Dir) : Except NormalError Report :=
  match rc with
  | .absent => .error .configMissing
  | .unparseable m => .error (.configUnparseable m)
  | .parsed spec =>
      match orNull (spec.bind List.head?) with
      | none => .error .configInvalid
      | some currentSpec =>
          let currentFile := basename currentSpec
          let currentStep := parseFloat? currentFile
          let tests := getAllTests dir
          let passed := (tests.filter (fun t => ltNum t.step currentStep)).map Artifact.file
          let locked := (tests.filter (fun t => gtNum t.step currentStep)).map Artifact.file
          .ok (addStats
            { current := some currentFile
              passed := passed
              locked := locked
              total := tests.length
              next := orNull locked.head?
              test := none })

/-- The function `getResultTestMode` (normal server with `--test`): every discovered
file is passed, `current` is `tests[tests.length - 1].file` (or null on
an empty set). -/
def getResultTestMode (dir : Dir) : Report :=
  let tests := getAllTests dir
  addStats
    { current := tests.getLast?.map Artifact.file
      passed := tests.map Artifact.file
      locked := []
      total := tests.length
      next := none
      test := none }

/-- An HTTP response of a `/result` route: `200` with the report, or an
error status with the structured `\x7b error, message \x7d` body. -/
inductive RouteResponse
  | ok (status : Nat) (report : Report)
  | fail (status : Nat) (error : String) (message : String)
deriving Repr, DecidableEq

/-- The normal server's `GET /result` handler: dispatch on the `--test`
flag, catch any throw into a 500 with the structured error body. -/
def normalResultRoute (testMode : Bool) (rc : MocharcFile) (dir : Dir) : RouteResponse :=
  if testMode then .ok 200 (getResultTestMode dir)
  else
    match getResultNormal rc dir with
    | .ok r => .ok 200 r
    | .error e => .fail 500 "Failed to read progress (normal mode)" e.message

/-- The terminal event of the spawned `npx mocha <file>` child process:
`close` with an exit code (`null` when the child was killed by a
signal) and the accumulated output streams, or `error` (the tool could
not be launched at all) with its message and whatever streams had
accumulated by then. -/
inductive ChildEvent
  | close (code : Option Int) (stdout stderr : String)
  | error (errMessage : String) (stdout stderr : String)
deriving Repr, DecidableEq

/-- The structured outcome that `runMochaInChild` resolves with. -/
structure RunOutcome where
  passed : Bool
  exitCode : Option Int
  stdout : String
  stderr : String
deriving Repr, DecidableEq

/-- The executor `runMochaInChild` — total on every child event: the promise only
ever resolves, never rejects.  On `close`, passed iff `code === 0`; on
a launch `error`, a synthetic exit code 1 and the error message folded
into the captured stderr. -/
def runMochaInChild : ChildEvent → RunOutcome
  | .close code out err => ⟨code == some 0, code, out, err⟩
  | .error m out err => ⟨false, some 1, out, (if err = "" then "" else err ++ "\n") ++ m⟩

/-- JS `truncate(str, max)`: cut a stream above a byte ceiling, appending
a truncation marker (called with the default `max = 6000`). -/
def truncate (str : String) (max : Nat) : String :=
  if str = "" then ""
  else if str.length > max then
    str.take max ++ "\n... (truncated " ++ toString (str.length - max) ++ " chars)"
  else str

/-- JS `a || b` on strings: take `b` when `a` is empty (falsy). -/
def strOr (a b : String) : String := if a = "" then b else a

/-- The helper `firstUsefulLine`: the first non-blank line of a text.  The source
splits on `\r?\n` and trims each line; trimming also removes a stray
`'\r'`, so splitting on `'\n'` alone is equivalent. -/
def firstUsefulLine (text : String) : String :=
  (((text.split (· == '\n')).map String.trim).filter (fun l => l != "")).headD ""

/-- Environment of project mode: the behaviour of the spawned child
process for each test file.  (The source invokes the runner on
`path.join(TEST_DIR, currentFile)`; `TEST_DIR` is a fixed prefix, so
the environment is keyed by the filename.) -/
abbrev Runner := String → ChildEvent

/-- The function `getResultProjectMode` (project server, executed-position mode). -/
def getResultProjectMode (testMode : Bool) (dir : Dir) (runner : Runner) : Report :=
  let tests := getAllTests dir
  match tests with
  | [] =>
      addStats
        { current := none
          passed := []
          locked := []
          total := 0
          next := none
          test := some ⟨none, false, none, "", "", "No test files found in /test", false⟩ }
  | t0 :: rest =>
      let currentFile := t0.file
      let nextFile := rest.head?.map Artifact.file
      if testMode then
        addStats
          { current := some currentFile
            passed := (t0 :: rest).map Artifact.file
            locked := []
            total := (t0 :: rest).length
            next := none
            test := some ⟨some currentFile, true, some 0, "", "", "", true⟩ }
      else
        let run := runMochaInChild (runner currentFile)
        let stdout := truncate run.stdout 6000
        let stderr := truncate run.stderr 6000
        addStats
          { current := some currentFile
            passed := if run.passed then [currentFile] else []
            locked := []
            total := (t0 :: rest).length
            next := if run.passed then nextFile else some currentFile
            test := some ⟨some currentFile, run.passed, run.exitCode, stdout, stderr,
              if run.passed then ""
              else strOr (firstUsefulLine stderr) (strOr (firstUsefulLine stdout) "Test failed"),
              false⟩ }

/-- The project server's `GET /result` handler.  Nothing in
`getResultProjectMode` can throw in this embedding (the executor
resolves on every event), so the catch branch is unreachable. -/
def projectResultRoute (testMode : Bool) (dir : Dir) (runner : Runner) : RouteResponse :=
  .ok 200 (getResultProjectMode testMode dir runner)

/-- The spec's reading of the discovery filter: the filename is a
nonempty digit run, optionally a dot and a second nonempty digit run,
then the literal `.test.js` suffix. -/
def MatchesTestPattern (f : String) : Prop :=
  ∃ d1 : List Char, ∃ d2 : Option (List Char),
    d1 ≠ [] ∧ (∀ c ∈ d1, c.isDigit) ∧
    (∀ l, d2 = some l → l ≠ [] ∧ ∀ c ∈ l, c.isDigit) ∧
    f.data = d1 ++ (match d2 with | none => [] | some l => '.' :: l) ++ ".test.js".data

/-- The declared-position partition contract (C1), bundled: over the
directory `dir`, with current file `cf` whose parsed step is `c`, the
report lists exactly the strictly-lower steps as passed and the
strictly-higher steps as locked, both in ascending step order, keeps
the pointer's own artifact out of both, and points `next` at the
lowest-step locked artifact (null when none). -/
def DeclaredPartitionOK (dir : Dir) (cf : String) (c : ℚ) (r : Report) : Prop :=
  r.passed = ((getAllTests dir).filter (fun t => decide (t.step < c))).map Artifact.file ∧
  (((getAllTests dir).filter (fun t => decide (t.step < c))).map Artifact.step).Pairwise (· ≤ ·) ∧
  r.locked = ((getAllTests dir).filter (fun t => decide (c < t.step))).map Artifact.file ∧
  (((getAllTests dir).filter (fun t => decide (c < t.step))).map Artifact.step).Pairwise (· ≤ ·) ∧
  r.current = some cf ∧
  cf ∉ r.passed ∧ cf ∉ r.locked ∧
  r.next = (((getAllTests dir).filter (fun t => decide (c < t.step))).head?).map Artifact.file ∧
  (∀ t1, ((getAllTests dir).filter (fun t => decide (c < t.step))).head? = some t1 →
     ∀ t ∈ (getAllTests dir).filter (fun t => decide (c < t.step)), t1.step ≤ t.step) ∧
  (r.next = none ↔ r.locked = [])

/-- The executed-position contract (C2), bundled: when discovery over
`dir` finds `t0 :: rest` and the child-process outcome for `t0` is
`run`, the report has the lowest-step artifact as current, empty
locked, and passed/next determined by the run's success. -/
def ExecutedModeOK (dir : Dir) (t0 : Artifact) (rest : List Artifact)
    (run : RunOutcome) (r : Report) : Prop :=
  r.current = some t0.file ∧
  (∀ t ∈ getAllTests dir, t0.step ≤ t.step) ∧
  r.locked = [] ∧
  (run.passed = true →
     r.passed = [t0.file] ∧ r.next = rest.head?.map Artifact.file ∧
     (∀ t1 ∈ rest.head?, ∀ t ∈ rest, t1.step ≤ t.step)) ∧
  (run.passed = false → r.passed = [] ∧ r.next = some t0.file)

/-- The percentage contract (C4), as the spec states it: integer
percentages in [0, 100] equal to `round(count / max(total, 1) * 100)`,
forced to 0 when the total is 0. -/
def PercentSpec (r : Report) : Prop :=
  r.passedPercent = mathRound ((r.passedCount : ℚ) / ((Nat.max r.totalCount 1 : ℕ) : ℚ) * 100) ∧
  r.lockedPercent = mathRound ((r.lockedCount : ℚ) / ((Nat.max r.totalCount 1 : ℕ) : ℚ) * 100) ∧
  0 ≤ r.passedPercent ∧ r.passedPercent ≤ 100 ∧
  0 ≤ r.lockedPercent ∧ r.lockedPercent ≤ 100 ∧
  (r.totalCount = 0 → r.passedPercent = 0 ∧ r.lockedPercent = 0)

/-- The empty-discovery report contract (C9). -/
def EmptyReportOK (r : Report) : Prop :=
  r.current = none ∧ r.passed = [] ∧ r.locked = [] ∧ r.total = 0 ∧
    r.totalCount = 0 ∧ r.next = none ∧ r.passedPercent = 0

/-! ### Character-level helper lemmas -/

lemma isDigit_ne_dot {c : Char} (h : c.isDigit = true) : c ≠ '.' := by
  intro heq
  rw [heq] at h
  exact absurd h (by decide)

lemma isWhitespace_eq_false_of_isDigit {c : Char} (h : c.isDigit = true) :
    c.isWhitespace = false := by
  rcases Bool.eq_false_or_eq_true c.isWhitespace with h' | h'
  · exfalso
    simp only [Char.isWhitespace, Bool.or_eq_true, decide_eq_true_eq] at h'
    rcases h' with ((h' | h') | h') | h' <;> rw [h'] at h <;> exact absurd h (by decide)
  · exact h'

lemma takeWhile_digit_append (d rest : List Char) (hd : ∀ c ∈ d, c.isDigit = true)
    (hr : ∀ c, rest.head? = some c → c.isDigit = false) :
    (d ++ rest).takeWhile Char.isDigit = d ∧
      (d ++ rest).dropWhile Char.isDigit = rest := by
  induction d with
  | nil =>
      cases rest with
      | nil => simp
      | cons c r => simp [List.takeWhile_cons, List.dropWhile_cons, hr c rfl]
  | cons c d ih =>
      have hc : c.isDigit = true := hd c (List.mem_cons_self c d)
      have := ih (fun x hx => hd x (List.mem_cons_of_mem c hx))
      simp [List.takeWhile_cons, List.dropWhile_cons, hc, this.1, this.2]

lemma head_not_digit_dot (l : List Char) :
    ∀ c, ('.' :: l).head? = some c → c.isDigit = false := by
  intro c hc
  simp only [List.head?_cons, Option.some.injEq] at hc
  rw [← hc]
  decide

/-- On a string whose first character is a digit, `parseFloat` is
`parseDecimal?` of the raw characters. -/
lemma parseFloat?_of_head_digit (c : Char) (cs : List Char) (s : String)
    (hs : s.data = c :: cs) (hc : c.isDigit = true) :
    parseFloat? s = parseDecimal? (c :: cs) := by
  have hnw : (c :: cs).dropWhile Char.isWhitespace = c :: cs := by
    simp [List.dropWhile_cons, isWhitespace_eq_false_of_isDigit hc]
  have hminus : c ≠ '-' := by
    intro heq; rw [heq] at hc; exact absurd hc (by decide)
  have hplus : c ≠ '+' := by
    intro heq; rw [heq] at hc; exact absurd hc (by decide)
  rw [parseFloat?, hs, hnw]
  simp [List.head?_cons, hminus, hplus]

/-- Parsing with `parseDecimal?` succeeds whenever the characters begin with a
digit. -/
lemma parseDecimal?_isSome_of_head_digit (cs : List Char)
    (h : cs.takeWhile Char.isDigit ≠ []) : ∃ q, parseDecimal? cs = some q := by
  rw [parseDecimal?]
  have hne : (cs.takeWhile Char.isDigit).isEmpty = false := by
    rcases htw : cs.takeWhile Char.isDigit with _ | ⟨c, d⟩
    · exact absurd htw h
    · rfl
  rw [hne]
  simp only [Bool.false_eq_true, if_false]
  by_cases h2 : (cs.dropWhile Char.isDigit).head? == some '.'
  · rw [if_pos h2]; exact ⟨_, rfl⟩
  · rw [if_neg h2]; exact ⟨_, rfl⟩

lemma dotTest_data : ".test.js".data = '.' :: "test.js".data := by decide

lemma isEmpty_eq_false_of_ne_nil {l : List Char} (h : l ≠ []) : l.isEmpty = false := by
  cases l with
  | nil => exact absurd rfl h
  | cons a t => rfl

/-- The source's regex filter accepts exactly the filenames of the
shape the spec describes: digits, an optional single decimal group,
then `.test.js`. -/
lemma isTestFileName_iff (f : String) :
    isTestFileName f = true ↔ MatchesTestPattern f := by
  constructor
  · intro h
    rw [isTestFileName] at h
    rcases Bool.eq_false_or_eq_true (f.data.takeWhile Char.isDigit).isEmpty with h1 | h1
    · rw [h1] at h; simp at h
    rw [h1] at h
    simp only [Bool.false_eq_true, if_false] at h
    have hd1ne : f.data.takeWhile Char.isDigit ≠ [] := by
      intro hnil; rw [hnil] at h1; exact absurd h1 (by decide)
    have hd1dig : ∀ c ∈ f.data.takeWhile Char.isDigit, c.isDigit = true :=
      fun c hc => List.mem_takeWhile_imp hc
    rcases Bool.eq_false_or_eq_true ((f.data.dropWhile Char.isDigit).head? == some '.')
      with hdot | hdot
    swap
    · rw [hdot] at h; simp at h
    have hdot' : (f.data.dropWhile Char.isDigit).head? = some '.' := by simpa using hdot
    rw [hdot] at h
    simp only [if_true] at h
    rcases hr1 : f.data.dropWhile Char.isDigit with _ | ⟨c0, r2⟩
    · rw [hr1] at hdot'; simp at hdot'
    rw [hr1] at hdot'
    simp only [List.head?_cons, Option.some.injEq] at hdot'
    rw [hr1, List.tail_cons] at h
    have hsplit : f.data = f.data.takeWhile Char.isDigit ++ (c0 :: r2) := by
      rw [← hr1, List.takeWhile_append_dropWhile]
    rcases Bool.eq_false_or_eq_true (r2.takeWhile Char.isDigit).isEmpty with h2 | h2
    · -- no decimal group: the dot starts the ".test.js" suffix
      rw [h2] at h
      simp only [if_true, beq_iff_eq] at h
      refine ⟨f.data.takeWhile Char.isDigit, none, hd1ne, hd1dig, ?_, ?_⟩
      · intro l hl; cases hl
      · conv_lhs => rw [hsplit]
        rw [hdot', h]
        simp [dotTest_data]
    · -- a real decimal group is present
      rw [h2] at h
      simp only [Bool.false_eq_true, if_false, beq_iff_eq] at h
      refine ⟨f.data.takeWhile Char.isDigit, some (r2.takeWhile Char.isDigit),
        hd1ne, hd1dig, ?_, ?_⟩
      · intro l hl
        obtain rfl : r2.takeWhile Char.isDigit = l := by injection hl
        refine ⟨?_, fun c hc => List.mem_takeWhile_imp hc⟩
        intro hnil; rw [hnil] at h2; exact absurd h2 (by decide)
      · conv_lhs => rw [hsplit]
        rw [hdot']
        conv_lhs =>
          rw [show r2 = r2.takeWhile Char.isDigit ++ r2.dropWhile Char.isDigit from
            (List.takeWhile_append_dropWhile _ _).symm]
        rw [h]
        simp
  · rintro ⟨d1, d2, hne, hdig, hd2, heq⟩
    rw [isTestFileName]
    rcases d2 with _ | l
    · -- no decimal group
      have heq' : f.data = d1 ++ ('.' :: "test.js".data) := by
        rw [heq, dotTest_data]; simp
      have hsp := takeWhile_digit_append d1 ('.' :: "test.js".data) hdig
        (head_not_digit_dot _)
      rw [heq', hsp.1, hsp.2, isEmpty_eq_false_of_ne_nil hne]
      simp only [Bool.false_eq_true, if_false, List.head?_cons, List.tail_cons]
      decide
    · -- a decimal group
      obtain ⟨hlne, hldig⟩ := hd2 l rfl
      have heq' : f.data = d1 ++ ('.' :: (l ++ ".test.js".data)) := by
        rw [heq]; simp
      have hsp := takeWhile_digit_append d1 ('.' :: (l ++ ".test.js".data)) hdig
        (head_not_digit_dot _)
      have hsp2 := takeWhile_digit_append l (".test.js".data) hldig
        (by intro c hc
            rw [dotTest_data, List.head?_cons, Option.some.injEq] at hc
            rw [← hc]; decide)
      rw [heq', hsp.1, hsp.2, isEmpty_eq_false_of_ne_nil hne]
      simp only [Bool.false_eq_true, if_false, List.head?_cons, List.tail_cons]
      rw [hsp2.1, hsp2.2, isEmpty_eq_false_of_ne_nil hlne]
      simp

/-- A matching filename parses: `parseFloat` on it yields a number. -/
lemma parseFloat?_isSome_of_isTestFileName {f : String} (h : isTestFileName f = true) :
    ∃ q, parseFloat? f = some q := by
  have hd1ne : f.data.takeWhile Char.isDigit ≠ [] := by
    intro hnil
    rw [isTestFileName] at h
    rw [hnil] at h
    simp at h
  rcases hfd : f.data with _ | ⟨c, cs⟩
  · rw [hfd] at hd1ne; simp at hd1ne
  have hc : c.isDigit = true := by
    by_contra hc
    have hcf : c.isDigit = false := by
      rcases Bool.eq_false_or_eq_true c.isDigit with h' | h'
      · exact absurd h' hc
      · exact h'
    rw [hfd, List.takeWhile_cons, hcf] at hd1ne
    simp at hd1ne
  rw [parseFloat?_of_head_digit c cs f hfd hc]
  apply parseDecimal?_isSome_of_head_digit
  rw [List.takeWhile_cons, hc]
  simp

/-- A matching filename is a nonempty string. -/
lemma ne_empty_of_isTestFileName {f : String} (h : isTestFileName f = true) :
    f ≠ "" := by
  intro heq
  rw [heq] at h
  exact absurd h (by decide)

/-! ### Structure of the discovered artifact list -/

lemma mem_getAllTests {fs : List String} {t : Artifact} :
    t ∈ getAllTests (some fs) ↔
      ∃ f ∈ fs, isTestFileName f = true ∧
        t = Artifact.mk f ((parseFloat? f).getD 0) := by
  rw [getAllTests, List.mem_mergeSort, List.mem_map]
  constructor
  · rintro ⟨f, hf, rfl⟩
    rw [List.mem_filter] at hf
    exact ⟨f, hf.1, hf.2, rfl⟩
  · rintro ⟨f, hf1, hf2, rfl⟩
    exact ⟨f, List.mem_filter.mpr ⟨hf1, hf2⟩, rfl⟩

/-- Every discovered artifact carries a matching filename whose parsed
step is exactly the recorded `step`. -/
lemma parse_of_mem_getAllTests {dir : Dir} {t : Artifact}
    (h : t ∈ getAllTests dir) :
    isTestFileName t.file = true ∧ parseFloat? t.file = some t.step := by
  cases dir with
  | none => simp [getAllTests] at h
  | some fs =>
      obtain ⟨f, _, hmatch, rfl⟩ := mem_getAllTests.mp h
      obtain ⟨q, hq⟩ := parseFloat?_isSome_of_isTestFileName hmatch
      simp [hq, hmatch]

lemma file_ne_empty_of_mem_getAllTests {dir : Dir} {t : Artifact}
    (h : t ∈ getAllTests dir) : t.file ≠ "" :=
  ne_empty_of_isTestFileName (parse_of_mem_getAllTests h).1

/-- The discovered list is sorted ascending by step. -/
lemma getAllTests_sorted (dir : Dir) :
    (getAllTests dir).Pairwise (fun a b => a.step ≤ b.step) := by
  cases dir with
  | none => simp [getAllTests]
  | some fs =>
      refine List.Pairwise.imp (fun hab => of_decide_eq_true hab)
        (List.sorted_mergeSort ?_ ?_ _)
      · intro a b c hab hbc
        have h1 := of_decide_eq_true hab
        have h2 := of_decide_eq_true hbc
        exact decide_eq_true (le_trans h1 h2)
      · intro a b
        rcases le_total a.step b.step with h | h
        · simp [decide_eq_true h]
        · simp [decide_eq_true h]

/-- Discovery returns, up to the sort, the matching filenames. -/
lemma getAllTests_files_perm (fs : List String) :
    ((getAllTests (some fs)).map Artifact.file).Perm (fs.filter isTestFileName) := by
  have h := (List.mergeSort_perm
    ((fs.filter isTestFileName).map
      (fun f => Artifact.mk f ((parseFloat? f).getD 0)))
    (fun a b => decide (a.step ≤ b.step))).map Artifact.file
  rw [List.map_map] at h
  simpa [getAllTests, Function.comp_def] using h

lemma mem_of_getLast?_eq {α : Type} {l : List α} {a : α}
    (h : l.getLast? = some a) : a ∈ l := by
  induction l with
  | nil => cases h
  | cons b l ih =>
      cases l with
      | nil =>
          simp only [List.getLast?_singleton, Option.some.injEq] at h
          simp [h]
      | cons c l2 =>
          rw [List.getLast?_cons_cons] at h
          exact List.mem_cons_of_mem _ (ih h)

/-- In a step-sorted list the head has the lowest step. -/
lemma pairwise_head_le {l : List Artifact}
    (hp : l.Pairwise (fun a b => a.step ≤ b.step))
    {t0 : Artifact} (h0 : l.head? = some t0) : ∀ t ∈ l, t0.step ≤ t.step := by
  cases l with
  | nil => cases h0
  | cons a l =>
      simp only [List.head?_cons, Option.some.injEq] at h0
      intro t ht
      rcases List.mem_cons.mp ht with rfl | ht
      · rw [← h0]
      · rw [← h0]; exact (List.pairwise_cons.mp hp).1 t ht

/-- In a step-sorted list the last element has the highest step. -/
lemma pairwise_getLast_ge {l : List Artifact}
    (hp : l.Pairwise (fun a b => a.step ≤ b.step))
    {tl : Artifact} (hl : l.getLast? = some tl) : ∀ t ∈ l, t.step ≤ tl.step := by
  induction l with
  | nil => cases hl
  | cons a l ih =>
      cases l with
      | nil =>
          simp only [List.getLast?_singleton, Option.some.injEq] at hl
          intro t ht
          rcases List.mem_cons.mp ht with rfl | ht
          · rw [hl]
          · cases ht
      | cons b l2 =>
          rw [List.getLast?_cons_cons] at hl
          intro t ht
          have hp2 := List.pairwise_cons.mp hp
          rcases List.mem_cons.mp ht with rfl | ht
          · exact hp2.1 tl (mem_of_getLast?_eq hl)
          · exact ih hp2.2 hl t ht

/-! ### Report assembler lemmas -/

lemma addStats_current (p : Payload) : (addStats p).current = p.current := rfl

lemma addStats_passed (p : Payload) : (addStats p).passed = p.passed := rfl

lemma addStats_locked (p : Payload) : (addStats p).locked = p.locked := rfl

lemma addStats_total (p : Payload) : (addStats p).total = p.total := rfl

lemma addStats_next (p : Payload) : (addStats p).next = p.next := rfl

lemma addStats_test (p : Payload) : (addStats p).test = p.test := rfl

lemma addStats_totalCount (p : Payload) : (addStats p).totalCount = p.total := rfl

lemma addStats_passedCount (p : Payload) :
    (addStats p).passedCount = p.passed.length := rfl

lemma addStats_lockedCount (p : Payload) :
    (addStats p).lockedCount = p.locked.length := rfl

lemma addStats_passedPercent (p : Payload) :
    (addStats p).passedPercent =
      mathRound ((p.passed.length : ℚ) /
        ((if p.total > 0 then p.total else 1 : ℕ) : ℚ) * 100) := rfl

lemma addStats_lockedPercent (p : Payload) :
    (addStats p).lockedPercent =
      mathRound ((p.locked.length : ℚ) /
        ((if p.total > 0 then p.total else 1 : ℕ) : ℚ) * 100) := rfl

/-- The source's percentage denominator is exactly `max(total, 1)`. -/
lemma denom_eq_max (t : Nat) : (if t > 0 then t else 1) = Nat.max t 1 := by
  rcases Nat.eq_zero_or_pos t with rfl | h
  · simp
  · rw [if_pos h]
    exact (max_eq_left h).symm

lemma mathRound_nonneg {q : ℚ} (h : 0 ≤ q) : 0 ≤ mathRound q := by
  rw [mathRound]
  apply Int.le_floor.mpr
  push_cast
  linarith

lemma mathRound_le_100 {q : ℚ} (h : q ≤ 100) : mathRound q ≤ 100 := by
  rw [mathRound]
  apply Int.floor_le_iff.mpr
  push_cast
  linarith

lemma pct_nonneg (c d : Nat) : 0 ≤ mathRound ((c : ℚ) / (d : ℚ) * 100) := by
  apply mathRound_nonneg
  positivity

lemma pct_le_100 {c d : Nat} (hd : 0 < d) (hc : c ≤ d) :
    mathRound ((c : ℚ) / (d : ℚ) * 100) ≤ 100 := by
  apply mathRound_le_100
  have hdq : (0 : ℚ) < (d : ℚ) := by exact_mod_cast hd
  have h1 : (c : ℚ) / (d : ℚ) ≤ 1 := by
    rw [div_le_one hdq]
    exact_mod_cast hc
  linarith

lemma pct_zero (d : Nat) : mathRound ((0 : ℚ) / (d : ℚ) * 100) = 0 := by
  rw [mathRound]
  norm_num

/-- Two mutually exclusive filters of one list cannot together exceed
its length. -/
lemma length_filter_add_length_filter_le {α : Type} (l : List α) (p q : α → Bool)
    (h : ∀ a ∈ l, p a = true → q a = false) :
    (l.filter p).length + (l.filter q).length ≤ l.length := by
  induction l with
  | nil => simp
  | cons a l ih =>
      have ih' := ih (fun x hx => h x (List.mem_cons_of_mem a hx))
      rcases Bool.eq_false_or_eq_true (p a) with hp | hp
      · have hq := h a (List.mem_cons_self a l) hp
        simp only [List.filter_cons, hp, hq, Bool.false_eq_true, if_true, if_false,
          List.length_cons]
        omega
      · rcases Bool.eq_false_or_eq_true (q a) with hq | hq
        · simp only [List.filter_cons, hp, hq, Bool.false_eq_true, if_true, if_false,
            List.length_cons]
          omega
        · simp only [List.filter_cons, hp, hq, Bool.false_eq_true, if_false,
            List.length_cons]
          omega

lemma gtNum_eq_false_of_ltNum {q : ℚ} {c : Option ℚ} (h : ltNum q c = true) :
    gtNum q c = false := by
  cases c with
  | none => cases h
  | some c =>
      simp only [ltNum, decide_eq_true_eq] at h
      simp only [gtNum, decide_eq_false_iff_not]
      exact lt_asymm h

/-! ### Shape of each mode's result -/

/-- Every successful declared-position result is the partition induced
by some current file. -/
lemma getResultNormal_ok_shape {rc : MocharcFile} {dir : Dir} {r : Report}
    (h : getResultNormal rc dir = .ok r) :
    ∃ cf : String,
      r = addStats
        { current := some cf
          passed := ((getAllTests dir).filter
              (fun t => ltNum t.step (parseFloat? cf))).map Artifact.file
          locked := ((getAllTests dir).filter
              (fun t => gtNum t.step (parseFloat? cf))).map Artifact.file
          total := (getAllTests dir).length
          next := orNull (((getAllTests dir).filter
              (fun t => gtNum t.step (parseFloat? cf))).map Artifact.file).head?
          test := none } := by
  cases rc with
  | absent => cases h
  | unparseable m => cases h
  | parsed spec =>
      rw [getResultNormal] at h
      rcases ho : orNull (spec.bind List.head?) with _ | cs
      · rw [ho] at h; cases h
      · rw [ho] at h
        refine ⟨basename cs, ?_⟩
        simpa using h.symm

/-- The declared-position mode on a well-formed configuration. -/
lemma getResultNormal_parsed (spec0 : String) (rest : List String) (dir : Dir)
    (hs : spec0 ≠ "") :
    getResultNormal (.parsed (some (spec0 :: rest))) dir =
      .ok (addStats
        { current := some (basename spec0)
          passed := ((getAllTests dir).filter
              (fun t => ltNum t.step (parseFloat? (basename spec0)))).map Artifact.file
          locked := ((getAllTests dir).filter
              (fun t => gtNum t.step (parseFloat? (basename spec0)))).map Artifact.file
          total := (getAllTests dir).length
          next := orNull (((getAllTests dir).filter
              (fun t => gtNum t.step (parseFloat? (basename spec0)))).map Artifact.file).head?
          test := none }) := by
  rw [getResultNormal]
  have ho : orNull ((some (spec0 :: rest)).bind List.head?) = some spec0 := by
    simp [orNull, hs]
  rw [ho]

/-- Project mode with an empty discovery. -/
lemma getResultProjectMode_nil {tm : Bool} {dir : Dir} {runner : Runner}
    (h : getAllTests dir = []) :
    getResultProjectMode tm dir runner =
      addStats
        { current := none
          passed := []
          locked := []
          total := 0
          next := none
          test := some ⟨none, false, none, "", "", "No test files found in /test", false⟩ } := by
  rw [getResultProjectMode, h]

/-- Project mode under the `--test` force-pass override. -/
lemma getResultProjectMode_forced {dir : Dir} {runner : Runner} {t0 : Artifact}
    {rest : List Artifact} (h : getAllTests dir = t0 :: rest) :
    getResultProjectMode true dir runner =
      addStats
        { current := some t0.file
          passed := (t0 :: rest).map Artifact.file
          locked := []
          total := (t0 :: rest).length
          next := none
          test := some ⟨some t0.file, true, some 0, "", "", "", true⟩ } := by
  rw [getResultProjectMode, h]
  rfl

/-- Project mode with a real child-process execution. -/
lemma getResultProjectMode_real {dir : Dir} {runner : Runner} {t0 : Artifact}
    {rest : List Artifact} (h : getAllTests dir = t0 :: rest) :
    getResultProjectMode false dir runner =
      addStats
        { current := some t0.file
          passed := if (runMochaInChild (runner t0.file)).passed then [t0.file] else []
          locked := []
          total := (t0 :: rest).length
          next := if (runMochaInChild (runner t0.file)).passed
            then rest.head?.map Artifact.file else some t0.file
          test := some ⟨some t0.file, (runMochaInChild (runner t0.file)).passed,
            (runMochaInChild (runner t0.file)).exitCode,
            truncate (runMochaInChild (runner t0.file)).stdout 6000,
            truncate (runMochaInChild (runner t0.file)).stderr 6000,
            if (runMochaInChild (runner t0.file)).passed then ""
            else strOr (firstUsefulLine (truncate (runMochaInChild (runner t0.file)).stderr 6000))
              (strOr (firstUsefulLine (truncate (runMochaInChild (runner t0.file)).stdout 6000))
                "Test failed"),
            false⟩ } := by
  rw [getResultProjectMode, h]
  rfl

/-! ### Concrete evaluations used by the witnesses -/

lemma parseFloat?_file1 : parseFloat? "1.test.js" = some 1 := by
  simp +decide [parseFloat?, parseDecimal?, digitsToNat, List.dropWhile, List.takeWhile]

lemma parseFloat?_file2 : parseFloat? "2.test.js" = some 2 := by
  simp +decide [parseFloat?, parseDecimal?, digitsToNat, List.dropWhile, List.takeWhile]

lemma basename_spec2 : basename "./test/2.test.js" = "2.test.js" := by decide

lemma getAllTests_ex1 : getAllTests (some ["1.test.js"]) = [⟨"1.test.js", 1⟩] := by
  rw [getAllTests]
  rw [List.mergeSort_of_sorted]
  · simp +decide [parseFloat?, parseDecimal?, digitsToNat, List.dropWhile, List.takeWhile]
  · simp +decide [parseFloat?, parseDecimal?, digitsToNat, List.dropWhile, List.takeWhile]

lemma getAllTests_ex12 : getAllTests (some ["1.test.js", "2.test.js"]) =
    [⟨"1.test.js", 1⟩, ⟨"2.test.js", 2⟩] := by
  rw [getAllTests]
  rw [List.mergeSort_of_sorted]
  · simp +decide [parseFloat?, parseDecimal?, digitsToNat, List.dropWhile, List.takeWhile]
  · simp +decide [parseFloat?, parseDecimal?, digitsToNat, List.dropWhile, List.takeWhile]

lemma getAllTests_ex123 :
    getAllTests (some ["1.test.js", "2.test.js", "3.test.js"]) =
      [⟨"1.test.js", 1⟩, ⟨"2.test.js", 2⟩, ⟨"3.test.js", 3⟩] := by
  rw [getAllTests]
  rw [List.mergeSort_of_sorted]
  · simp +decide [parseFloat?, parseDecimal?, digitsToNat, List.dropWhile, List.takeWhile]
  · simp +decide [parseFloat?, parseDecimal?, digitsToNat, List.dropWhile, List.takeWhile]

/-! ### The claims -/

/-- C7: the isolated executor always resolves to a structured outcome,
never raising: on every terminal child event `succeeded` holds exactly
when the reported exit status is zero (on a `close` event that status
is the child's own exit code), and on a launch failure it still
resolves, with `succeeded = false`, a synthetic non-zero exit code 1,
and the launch error message folded into the captured stderr stream. -/
theorem executor_always_resolves :
    (∀ (code : Option Int) (out err : String),
       ((runMochaInChild (.close code out err)).passed = true ↔ code = some 0) ∧
       (runMochaInChild (.close code out err)).exitCode = code) ∧
    (∀ ev : ChildEvent,
       (runMochaInChild ev).passed = true ↔ (runMochaInChild ev).exitCode = some 0) ∧
    (∀ (m out err : String),
       (runMochaInChild (.error m out err)).passed = false ∧
       (runMochaInChild (.error m out err)).exitCode = some 1 ∧
       (runMochaInChild (.error m out err)).stdout = out ∧
       ∃ pre, (runMochaInChild (.error m out err)).stderr = pre ++ m) := by
  refine ⟨?_, ?_, ?_⟩
  · intro code out err
    exact ⟨by simp [runMochaInChild], rfl⟩
  · intro ev
    cases ev with
    | close code out err => simp [runMochaInChild]
    | error m out err => simp [runMochaInChild]
  · intro m out err
    exact ⟨rfl, rfl, rfl, _, rfl⟩

/-- C6: with the force-pass override active, in both server modes, the
passed list is the full discovered set, locked is empty, next is null,
and the real executor is never invoked: the project-mode result is
independent of the child-process behaviour, and the normal server's
override path contains no executor at all. -/
theorem override_all_passed :
    (∀ dir : Dir,
       (getResultTestMode dir).passed = (getAllTests dir).map Artifact.file ∧
       (getResultTestMode dir).locked = [] ∧
       (getResultTestMode dir).next = none) ∧
    (∀ (dir : Dir) (runner runner' : Runner),
       getResultProjectMode true dir runner = getResultProjectMode true dir runner') ∧
    (∀ (dir : Dir) (runner : Runner),
       (getResultProjectMode true dir runner).passed = (getAllTests dir).map Artifact.file ∧
       (getResultProjectMode true dir runner).locked = [] ∧
       (getResultProjectMode true dir runner).next = none) := by
  refine ⟨?_, ?_, ?_⟩
  · intro dir
    exact ⟨rfl, rfl, rfl⟩
  · intro dir runner runner'
    rcases hts : getAllTests dir with _ | ⟨t0, rest⟩
    · rw [@getResultProjectMode_nil true dir runner hts,
        @getResultProjectMode_nil true dir runner' hts]
    · rw [@getResultProjectMode_forced dir runner t0 rest hts,
        @getResultProjectMode_forced dir runner' t0 rest hts]
  · intro dir runner
    rcases hts : getAllTests dir with _ | ⟨t0, rest⟩
    · rw [getResultProjectMode_nil hts]
      simp [addStats_passed, addStats_locked, addStats_next, hts]
    · rw [getResultProjectMode_forced hts]
      simp [addStats_passed, addStats_locked, addStats_next, hts]

/-- C9: executed-position mode with zero discovered artifacts returns
the empty report — null current, empty passed and locked, zero total,
null next, zero percent — and the result does not depend on the
executor (it is never invoked). -/
theorem project_mode_empty_report (tm : Bool) (dir : Dir)
    (runner runner' : Runner) (h : getAllTests dir = []) :
    EmptyReportOK (getResultProjectMode tm dir runner) ∧
      getResultProjectMode tm dir runner = getResultProjectMode tm dir runner' := by
  constructor
  · rw [getResultProjectMode_nil h]
    refine ⟨rfl, rfl, rfl, rfl, rfl, rfl, ?_⟩
    rw [addStats_passedPercent, mathRound]
    norm_num
  · rw [@getResultProjectMode_nil tm dir runner h,
      @getResultProjectMode_nil tm dir runner' h]

/-- Witness for C9 at the concrete input `dir = none` (missing `test/`
directory). -/
theorem project_mode_empty_report_witness :
    EmptyReportOK (getResultProjectMode false none (fun _ => .close (some 0) "" "")) ∧
      getResultProjectMode false none (fun _ => .close (some 0) "" "") =
        getResultProjectMode false none (fun _ => .error "spawn failed" "" "") :=
  project_mode_empty_report false none _ _ rfl

/-- C10: with the force-pass override active in declared-position mode
the configuration source is never read — any two configuration states
produce the same successful response — and `current` is the last,
highest-step discovered artifact, or null when none exist. -/
theorem override_ignores_config (rc rc' : MocharcFile) (dir : Dir) :
    normalResultRoute true rc dir = normalResultRoute true rc' dir ∧
    normalResultRoute true rc dir = .ok 200 (getResultTestMode dir) ∧
    (getResultTestMode dir).current = ((getAllTests dir).getLast?).map Artifact.file ∧
    (∀ tl, (getAllTests dir).getLast? = some tl →
       ∀ t ∈ getAllTests dir, t.step ≤ tl.step) := by
  refine ⟨rfl, rfl, rfl, ?_⟩
  intro tl hl t ht
  exact pairwise_getLast_ge (getAllTests_sorted dir) hl t ht

/-- Witness for C10: two artifacts, any two configurations (one absent,
one malformed); `current` is the highest-step file `2.test.js` and its
step bounds the other artifact's step. -/
theorem override_ignores_config_witness :
    (normalResultRoute true .absent (some ["1.test.js", "2.test.js"]) =
       normalResultRoute true (.parsed none) (some ["1.test.js", "2.test.js"])) ∧
    (getResultTestMode (some ["1.test.js", "2.test.js"])).current = some "2.test.js" ∧
    (∀ t ∈ getAllTests (some ["1.test.js", "2.test.js"]),
       t.step ≤ (Artifact.mk "2.test.js" 2).step) := by
  have h := override_ignores_config .absent (.parsed none) (some ["1.test.js", "2.test.js"])
  refine ⟨h.1, ?_, ?_⟩
  · rw [h.2.2.1, getAllTests_ex12]
    rfl
  · exact h.2.2.2 ⟨"2.test.js", 2⟩ (by rw [getAllTests_ex12]; rfl)

/-- C8: declared-position mode fails with the missing-configuration
error when the pointer source is absent, and with the
invalid-configuration error when it is present but yields no usable
identifier (`spec` not an array, an empty array, or an empty string
entry); every such failure reaches the caller through the route as a
500 response with the structured error/message body, with distinct
messages for the two categories — never a silently defaulted report. -/
theorem config_error_handling :
    (∀ dir : Dir, getResultNormal .absent dir = .error .configMissing) ∧
    (∀ dir : Dir, getResultNormal (.parsed none) dir = .error .configInvalid) ∧
    (∀ dir : Dir, getResultNormal (.parsed (some [])) dir = .error .configInvalid) ∧
    (∀ (dir : Dir) (rest : List String),
       getResultNormal (.parsed (some ("" :: rest))) dir = .error .configInvalid) ∧
    (∀ (rc : MocharcFile) (dir : Dir) (e : NormalError),
       getResultNormal rc dir = .error e →
         normalResultRoute false rc dir =
           .fail 500 "Failed to read progress (normal mode)" e.message) ∧
    NormalError.configMissing.message ≠ NormalError.configInvalid.message := by
  refine ⟨fun dir => rfl, fun dir => rfl, fun dir => rfl, ?_, ?_, ?_⟩
  · intro dir rest
    rw [getResultNormal]
    simp [orNull]
  · intro rc dir e h
    rw [normalResultRoute]
    simp [h]
  · decide

/-- Witness for C8: the absent configuration turned into the 500
response by the route, at a concrete directory. -/
theorem config_error_handling_witness :
    getResultNormal .absent (some ["1.test.js"]) = .error .configMissing ∧
    normalResultRoute false .absent (some ["1.test.js"]) =
      .fail 500 "Failed to read progress (normal mode)"
        NormalError.configMissing.message :=
  ⟨config_error_handling.1 (some ["1.test.js"]),
   config_error_handling.2.2.2.2.1 .absent (some ["1.test.js"]) .configMissing rfl⟩

/-- C2: in executed-position mode without the override, on a non-empty
discovery, `current` is the lowest-step artifact; on a successful run
`passed = [current]` and `next` is the second-lowest artifact (null
when only one exists); on a failed run `passed = []` and
`next = current`; `locked` is empty in both cases. -/
theorem project_mode_execution (dir : Dir) (runner : Runner) (t0 : Artifact)
    (rest : List Artifact) (h : getAllTests dir = t0 :: rest) :
    ExecutedModeOK dir t0 rest (runMochaInChild (runner t0.file))
      (getResultProjectMode false dir runner) := by
  unfold ExecutedModeOK
  rw [getResultProjectMode_real h]
  refine ⟨rfl, ?_, rfl, ?_, ?_⟩
  · intro t ht
    refine pairwise_head_le (getAllTests_sorted dir) ?_ t ht
    rw [h]
    rfl
  · intro hp
    refine ⟨by simp [addStats_passed, hp], by simp [addStats_next, hp], ?_⟩
    intro t1 ht1 t ht
    have hp2 : rest.Pairwise (fun a b => a.step ≤ b.step) := by
      have hs := getAllTests_sorted dir
      rw [h] at hs
      exact (List.pairwise_cons.mp hs).2
    exact pairwise_head_le hp2 (by simpa using ht1) t ht
  · intro hp
    exact ⟨by simp [addStats_passed, hp], by simp [addStats_next, hp]⟩

/-- Witness for C2, scenario D of the spec: two artifacts, the run of
`1.test.js` exits zero. -/
theorem project_mode_execution_witness :
    getAllTests (some ["1.test.js", "2.test.js"]) =
      Artifact.mk "1.test.js" 1 :: [Artifact.mk "2.test.js" 2] ∧
    ExecutedModeOK (some ["1.test.js", "2.test.js"]) (Artifact.mk "1.test.js" 1)
      [Artifact.mk "2.test.js" 2]
      (runMochaInChild ((fun _ => .close (some 0) "ok" "") "1.test.js"))
      (getResultProjectMode false (some ["1.test.js", "2.test.js"])
        (fun _ => .close (some 0) "ok" "")) :=
  ⟨getAllTests_ex12,
   project_mode_execution (some ["1.test.js", "2.test.js"]) (fun _ => .close (some 0) "ok" "")
     (Artifact.mk "1.test.js" 1) [Artifact.mk "2.test.js" 2] getAllTests_ex12⟩

/-- C3: every report produced by any mode satisfies
`passedCount + lockedCount ≤ totalCount`. -/
theorem counts_invariant :
    (∀ (rc : MocharcFile) (dir : Dir) (r : Report),
       getResultNormal rc dir = .ok r →
         r.passedCount + r.lockedCount ≤ r.totalCount) ∧
    (∀ dir : Dir,
       (getResultTestMode dir).passedCount + (getResultTestMode dir).lockedCount ≤
         (getResultTestMode dir).totalCount) ∧
    (∀ (tm : Bool) (dir : Dir) (runner : Runner),
       (getResultProjectMode tm dir runner).passedCount +
           (getResultProjectMode tm dir runner).lockedCount ≤
         (getResultProjectMode tm dir runner).totalCount) := by
  refine ⟨?_, ?_, ?_⟩
  · intro rc dir r h
    obtain ⟨cf, rfl⟩ := getResultNormal_ok_shape h
    rw [addStats_passedCount, addStats_lockedCount, addStats_totalCount]
    simp only [List.length_map]
    exact length_filter_add_length_filter_le _ _ _
      (fun t _ hlt => gtNum_eq_false_of_ltNum hlt)
  · intro dir
    simp [getResultTestMode, addStats_passedCount, addStats_lockedCount,
      addStats_totalCount]
  · intro tm dir runner
    rcases hts : getAllTests dir with _ | ⟨t0, rest⟩
    · rw [getResultProjectMode_nil hts]
      simp [addStats_passedCount, addStats_lockedCount, addStats_totalCount]
    · cases tm with
      | true =>
          rw [getResultProjectMode_forced hts]
          simp [addStats_passedCount, addStats_lockedCount, addStats_totalCount]
      | false =>
          rw [getResultProjectMode_real hts]
          rw [addStats_passedCount, addStats_lockedCount, addStats_totalCount]
          rcases Bool.eq_false_or_eq_true (runMochaInChild (runner t0.file)).passed
            with hp | hp <;>
            simp [hp, List.length_cons]

/-- Witness for C3, discharging the normal-mode hypothesis at a
concrete configuration over an empty directory. -/
theorem counts_invariant_witness :
    getResultNormal (.parsed (some ["./test/2.test.js"])) none =
      .ok (addStats ⟨some "2.test.js", [], [], 0, none, none⟩) ∧
    (addStats ⟨some "2.test.js", [], [], 0, none, none⟩).passedCount +
        (addStats ⟨some "2.test.js", [], [], 0, none, none⟩).lockedCount ≤
      (addStats ⟨some "2.test.js", [], [], 0, none, none⟩).totalCount := by
  have hok : getResultNormal (.parsed (some ["./test/2.test.js"])) none =
      .ok (addStats ⟨some "2.test.js", [], [], 0, none, none⟩) := by
    rw [getResultNormal_parsed "./test/2.test.js" [] none (by decide), basename_spec2]
    rfl
  exact ⟨hok, counts_invariant.1 _ none _ hok⟩

/-- The assembler meets the percentage contract whenever the list
lengths it is fed are bounded by the total (true at every call site). -/
lemma percentSpec_addStats (p : Payload) (hp : p.passed.length ≤ p.total)
    (hl : p.locked.length ≤ p.total) : PercentSpec (addStats p) := by
  have hdm : (if p.total > 0 then p.total else 1) = Nat.max p.total 1 :=
    denom_eq_max p.total
  have hpmax : p.passed.length ≤ Nat.max p.total 1 :=
    le_trans hp (Nat.le_max_left _ _)
  have hlmax : p.locked.length ≤ Nat.max p.total 1 :=
    le_trans hl (Nat.le_max_left _ _)
  have hdpos : 0 < Nat.max p.total 1 :=
    lt_of_lt_of_le Nat.zero_lt_one (Nat.le_max_right _ _)
  refine ⟨?_, ?_, ?_, ?_, ?_, ?_, ?_⟩
  · rw [addStats_passedPercent, addStats_passedCount, addStats_totalCount, hdm]
  · rw [addStats_lockedPercent, addStats_lockedCount, addStats_totalCount, hdm]
  · rw [addStats_passedPercent]
    exact pct_nonneg _ _
  · rw [addStats_passedPercent, hdm]
    exact pct_le_100 hdpos hpmax
  · rw [addStats_lockedPercent]
    exact pct_nonneg _ _
  · rw [addStats_lockedPercent, hdm]
    exact pct_le_100 hdpos hlmax
  · intro h0
    rw [addStats_totalCount] at h0
    have hp0 : p.passed.length = 0 := by omega
    have hl0 : p.locked.length = 0 := by omega
    constructor
    · rw [addStats_passedPercent, hp0]
      simpa using pct_zero (if p.total > 0 then p.total else 1)
    · rw [addStats_lockedPercent, hl0]
      simpa using pct_zero (if p.total > 0 then p.total else 1)

/-- C4: every assembled report carries integer percentages in [0, 100]
equal to `round(count / max(total, 1) * 100)`, and a zero total forces
both percentages to 0 — no division fault, not 100. -/
theorem percent_invariant :
    (∀ (rc : MocharcFile) (dir : Dir) (r : Report),
       getResultNormal rc dir = .ok r → PercentSpec r) ∧
    (∀ dir : Dir, PercentSpec (getResultTestMode dir)) ∧
    (∀ (tm : Bool) (dir : Dir) (runner : Runner),
       PercentSpec (getResultProjectMode tm dir runner)) := by
  refine ⟨?_, ?_, ?_⟩
  · intro rc dir r h
    obtain ⟨cf, rfl⟩ := getResultNormal_ok_shape h
    apply percentSpec_addStats <;>
      simp only [List.length_map] <;> exact List.length_filter_le _ _
  · intro dir
    rw [getResultTestMode]
    apply percentSpec_addStats <;> simp
  · intro tm dir runner
    rcases hts : getAllTests dir with _ | ⟨t0, rest⟩
    · rw [getResultProjectMode_nil hts]
      apply percentSpec_addStats <;> simp
    · cases tm with
      | true =>
          rw [getResultProjectMode_forced hts]
          apply percentSpec_addStats <;> simp
      | false =>
          rw [getResultProjectMode_real hts]
          apply percentSpec_addStats <;>
            rcases Bool.eq_false_or_eq_true (runMochaInChild (runner t0.file)).passed
              with hp | hp <;>
            simp [hp, List.length_cons]

/-- Witness for C4, discharging the normal-mode hypothesis at a
concrete configuration over an empty directory (total 0: both
percentages are 0). -/
theorem percent_invariant_witness :
    getResultNormal (.parsed (some ["./test/2.test.js"])) none =
      .ok (addStats ⟨some "2.test.js", [], [], 0, none, none⟩) ∧
    PercentSpec (addStats ⟨some "2.test.js", [], [], 0, none, none⟩) := by
  have hok : getResultNormal (.parsed (some ["./test/2.test.js"])) none =
      .ok (addStats ⟨some "2.test.js", [], [], 0, none, none⟩) := by
    rw [getResultNormal_parsed "./test/2.test.js" [] none (by decide), basename_spec2]
    rfl
  exact ⟨hok, percent_invariant.1 _ none _ hok⟩

/-- C1: in declared-position mode, for every discovered artifact
sequence and every valid configuration pointer (nonempty spec entry
whose basename parses to a step `c`), the report's passed list is
exactly the artifacts with step strictly below `c` in ascending step
order, the locked list exactly those strictly above in ascending
order, the pointer's own artifact is current and in neither list, and
next is the lowest-step locked artifact or null when locked is
empty. -/
theorem declared_partition (fs : List String) (spec0 : String) (rest : List String)
    (c : ℚ) (hs : spec0 ≠ "") (hc : parseFloat? (basename spec0) = some c) :
    ∃ r : Report,
      getResultNormal (.parsed (some (spec0 :: rest))) (some fs) = .ok r ∧
      DeclaredPartitionOK (some fs) (basename spec0) c r := by
  refine ⟨_, getResultNormal_parsed spec0 rest (some fs) hs, ?_⟩
  unfold DeclaredPartitionOK
  rw [hc]
  have hsorted := getAllTests_sorted (some fs)
  have hpassSorted : ((getAllTests (some fs)).filter
      (fun t => decide (t.step < c))).Pairwise (fun a b => a.step ≤ b.step) :=
    List.Pairwise.sublist (List.filter_sublist _) hsorted
  have hlockSorted : ((getAllTests (some fs)).filter
      (fun t => decide (c < t.step))).Pairwise (fun a b => a.step ≤ b.step) :=
    List.Pairwise.sublist (List.filter_sublist _) hsorted
  refine ⟨rfl, ?_, rfl, ?_, rfl, ?_, ?_, ?_, ?_, ?_⟩
  · exact hpassSorted.map Artifact.step (fun a b h => h)
  · exact hlockSorted.map Artifact.step (fun a b h => h)
  · -- the pointer's artifact is not among passed
    show basename spec0 ∉ (((getAllTests (some fs)).filter
      (fun t => decide (t.step < c))).map Artifact.file)
    intro hmem
    obtain ⟨t, htf, hteq⟩ := List.mem_map.mp hmem
    have htt : t ∈ getAllTests (some fs) := List.mem_of_mem_filter htf
    have hparse := (parse_of_mem_getAllTests htt).2
    rw [hteq, hc] at hparse
    obtain rfl : c = t.step := by injection hparse
    have hlt := of_decide_eq_true (List.mem_filter.mp htf).2
    exact lt_irrefl _ hlt
  · -- nor among locked
    show basename spec0 ∉ (((getAllTests (some fs)).filter
      (fun t => decide (c < t.step))).map Artifact.file)
    intro hmem
    obtain ⟨t, htf, hteq⟩ := List.mem_map.mp hmem
    have htt : t ∈ getAllTests (some fs) := List.mem_of_mem_filter htf
    have hparse := (parse_of_mem_getAllTests htt).2
    rw [hteq, hc] at hparse
    obtain rfl : c = t.step := by injection hparse
    have hlt := of_decide_eq_true (List.mem_filter.mp htf).2
    exact lt_irrefl _ hlt
  · -- next is the head of the locked partition
    show orNull ((((getAllTests (some fs)).filter
        (fun t => decide (c < t.step))).map Artifact.file).head?) =
      (((getAllTests (some fs)).filter (fun t => decide (c < t.step))).head?).map
        Artifact.file
    rcases hfl : (getAllTests (some fs)).filter (fun t => decide (c < t.step))
      with _ | ⟨t1, ts⟩
    · rw [hfl]
      rfl
    · have ht1 : t1 ∈ getAllTests (some fs) := by
        refine List.mem_of_mem_filter (p := fun t => decide (c < t.step)) ?_
        rw [hfl]
        exact List.mem_cons_self t1 ts
      have hne := file_ne_empty_of_mem_getAllTests ht1
      rw [hfl]
      simp [orNull, hne]
  · -- and that head has the lowest step among locked
    intro t1 h1 t ht
    exact pairwise_head_le hlockSorted h1 t ht
  · -- next is null exactly when locked is empty
    show (orNull ((((getAllTests (some fs)).filter
        (fun t => decide (c < t.step))).map Artifact.file).head?) = none) ↔
      (((getAllTests (some fs)).filter (fun t => decide (c < t.step))).map
        Artifact.file = [])
    rcases hfl : (getAllTests (some fs)).filter (fun t => decide (c < t.step))
      with _ | ⟨t1, ts⟩
    · rw [hfl]
      simp [orNull]
    · have ht1 : t1 ∈ getAllTests (some fs) := by
        refine List.mem_of_mem_filter (p := fun t => decide (c < t.step)) ?_
        rw [hfl]
        exact List.mem_cons_self t1 ts
      have hne := file_ne_empty_of_mem_getAllTests ht1
      rw [hfl]
      simp [orNull, hne]

/-- Witness for C1, scenario A of the spec: three artifacts, pointer
`./test/2.test.js`. -/
theorem declared_partition_witness :
    ("./test/2.test.js" : String) ≠ "" ∧
    parseFloat? (basename "./test/2.test.js") = some 2 ∧
    ∃ r : Report,
      getResultNormal (.parsed (some ["./test/2.test.js"]))
          (some ["1.test.js", "2.test.js", "3.test.js"]) = .ok r ∧
      DeclaredPartitionOK (some ["1.test.js", "2.test.js", "3.test.js"])
        (basename "./test/2.test.js") 2 r :=
  ⟨by decide, by rw [basename_spec2]; exact parseFloat?_file2,
   declared_partition ["1.test.js", "2.test.js", "3.test.js"] "./test/2.test.js" [] 2
     (by decide) (by rw [basename_spec2]; exact parseFloat?_file2)⟩

/-- C5: artifact discovery returns exactly the filenames matching
`<integer>[.<integer>].test.js` (the regex filter is equivalent to that
pattern; every other name is excluded), ordered ascending by the
parsed numeric step, and a missing directory yields the empty sequence
rather than a failure. -/
theorem discovery_spec :
    getAllTests none = [] ∧
    (∀ f : String, isTestFileName f = true ↔ MatchesTestPattern f) ∧
    (∀ fs : List String,
       ((getAllTests (some fs)).map Artifact.file).Perm (fs.filter isTestFileName) ∧
       ((getAllTests (some fs)).map Artifact.step).Pairwise (· ≤ ·) ∧
       ∀ t ∈ getAllTests (some fs), parseFloat? t.file = some t.step) := by
  refine ⟨rfl, isTestFileName_iff, ?_⟩
  intro fs
  refine ⟨getAllTests_files_perm fs, ?_, ?_⟩
  · exact (getAllTests_sorted (some fs)).map Artifact.step (fun a b h => h)
  · intro t ht
    exact (parse_of_mem_getAllTests ht).2

/-- Witness for C5: the pattern equivalence at `1.1.test.js` and the
parsed step of a discovered artifact at a concrete directory. -/
theorem discovery_spec_witness :
    (isTestFileName "1.1.test.js" = true ↔ MatchesTestPattern "1.1.test.js") ∧
    parseFloat? "1.test.js" = some 1 :=
  ⟨discovery_spec.2.1 "1.1.test.js",
   (discovery_spec.2.2 ["1.test.js"]).2.2 (Artifact.mk "1.test.js" 1)
     (by rw [getAllTests_ex1]; exact List.mem_singleton.mpr rfl)⟩

end Server
